import Mathlib

/-!
Verification of the `clientproxy` Caddy middleware (`cp.go`).

The development shallowly embeds the middleware:

* `Validate` — the configuration check (secret must be non-empty);
* `acceptProxy` — split into its setup phase (full-duplex enablement,
  hijack, flush, HTTP/2 `NewClientConn`), its commit phase
  (load-old / close-old-done / store-new on the `atomic.Value` slot),
  and its finish phase (`<-done` then `h2conn.Shutdown`);
* `ServeHTTP` — dispatch between registration, forwarding over the
  stored handler, and the `next` handler;
* the `Director` of the stored `httputil.ReverseProxy` (forces the URL
  scheme to "https");
* `bufConn.Read` — replay of bytes the `bufio.Reader` had buffered at
  hijack time, then fall-through to the raw connection.

Channels are identified by natural numbers; the `handler` record keeps
the identifier of its `done` channel (the Go `handler.proxy` field is
the same `ReverseProxy` shape for every registration — its `Director`
is modelled once, below — and its transport handle is opaque to the
properties considered here).
-/

namespace ClientProxy

/-- Go `handler` struct: we keep the identifier of its `done` channel. -/
structure handler where
  done : Nat
  deriving DecidableEq, Repr

/-- Errors `acceptProxy` can return, one per `return fmt.Errorf` site,
plus the shutdown error of the finish phase. -/
inductive ProxyErr where
  | fullDuplex   -- "must connect using HTTP/1.1" (EnableFullDuplex failed)
  | hijack       -- "must connect using HTTP/1.1" (Hijack failed)
  | flush        -- "unexpected flush error"
  | clientConn   -- "unable to create ClientConn"
  | shutdown     -- "error shutting down ClientConn"
  deriving DecidableEq, Repr

/-- The environment of one registration attempt: which of the fallible
setup steps fail, and how many bytes the request pipeline had buffered
at hijack time. -/
structure SetupEnv where
  fullDuplexErr   : Bool
  hijackErr       : Bool
  flushErr        : Bool
  buffered        : Nat
  newClientConnErr : Bool
  deriving DecidableEq, Repr

/-- The all-success environment. -/
def SetupEnv.ok : SetupEnv :=
  { fullDuplexErr := false, hijackErr := false, flushErr := false,
    buffered := 0, newClientConnErr := false }

/-- Setup phase of `acceptProxy` (cp.go lines 69-87), in source order:
`EnableFullDuplex`, `Hijack`, `buf.Flush`, then `h2t.NewClientConn`
(wrapping the connection in a `bufConn` first when bytes are buffered).
Each failure returns the corresponding error without touching the slot. -/
def acceptProxySetup (e : SetupEnv) : Except ProxyErr Unit :=
  if e.fullDuplexErr then .error .fullDuplex
  else if e.hijackErr then .error .hijack
  else if e.flushErr then .error .flush
  else if e.newClientConnErr then .error .clientConn
  else .ok ()

/-- State of the middleware visible to registrations: the `atomic.Value`
slot holding the current `handler` (if any), and the log of `done`
channels closed so far (`close(handler.done)` events, in order). -/
structure RegState where
  slot      : Option handler
  closedLog : List Nat
  deriving DecidableEq, Repr

/-- Initial state: slot never populated, nothing closed. -/
def RegState.init : RegState := { slot := none, closedLog := [] }

/-- One `acceptProxy` call up to and including the store (cp.go lines
68-104): the setup phase, then — only on setup success — load the old
handler, close its `done` channel if present, and store a fresh handler
whose `done` channel is `freshId`.  Returns the call's error status so
far together with the resulting middleware state. -/
def acceptProxyReg (e : SetupEnv) (st : RegState) (freshId : Nat) :
    Except ProxyErr Unit × RegState :=
  match acceptProxySetup e with
  | .error err => (.error err, st)
  | .ok () =>
      let log := match st.slot with
        | some h => st.closedLog ++ [h.done]
        | none => st.closedLog
      (.ok (), { slot := some { done := freshId }, closedLog := log })

/-- A sequence of successful registrations with the given fresh `done`
channel identifiers, applied left to right. -/
def runRegs (ids : List Nat) (st : RegState) : RegState :=
  ids.foldl (fun s i => (acceptProxyReg SetupEnv.ok s i).snd) st

/-- Result of `h2conn.Shutdown` in the finish phase: success, failure
with `net.ErrClosed`, or failure with any other error. -/
inductive ShutdownRes where
  | ok
  | errClosed
  | otherErr
  deriving DecidableEq, Repr

/-- Finish phase of `acceptProxy` (cp.go lines 105-114): the call blocks
on `<-done` (result `none` while the channel is still open) and, once
the channel is closed, runs `h2conn.Shutdown`, mapping `net.ErrClosed`
to success and any other failure to the shutdown error. -/
def acceptProxyFinish (doneClosed : Bool) (res : ShutdownRes) :
    Option (Except ProxyErr Unit) :=
  if doneClosed then
    some (match res with
      | .ok => .ok ()
      | .errClosed => .ok ()
      | .otherErr => .error .shutdown)
  else none

/-! ### Micro-step view of the commit phase (cp.go lines 89-104)

The commit phase is not a single atomic operation: it is the sequence
"load old; close old's `done`; store new".  To reason about what a
concurrent `Load` can observe between those steps, we list the
slot-relevant atomic events of the phase and the slot contents after
each prefix. -/

/-- An atomic event of the commit phase. -/
inductive ev where
  | closeDone (id : Nat)
  | store (id : Nat)
  deriving DecidableEq, Repr

/-- The events of the commit phase, in source order: close the previous
occupant's `done` channel (when one exists), then store the new handler. -/
def commitSteps (old : Option handler) (newId : Nat) : List ev :=
  (match old with
    | some h => [ev.closeDone h.done]
    | none => []) ++ [ev.store newId]

/-- Effect of one commit event on the slot: closing a channel does not
change the slot; the store replaces its contents. -/
def applyEv (slot : Option handler) : ev → Option handler
  | .closeDone _ => slot
  | .store id => some { done := id }

/-- Slot contents observable by a `Load` after the first `i` events of
the commit phase. -/
def slotAfter (old : Option handler) (newId : Nat) (i : Nat) : Option handler :=
  ((commitSteps old newId).take i).foldl applyEv old

/-- The ordering property C2 asserts of a displacement: once the close
event has happened, no `Load` can still return the old handler. -/
def closeAfterUnreachable (oldH : handler) (newId : Nat) : Prop :=
  ∀ i, i ≤ (commitSteps (some oldH) newId).length →
    ev.closeDone oldH.done ∈ (commitSteps (some oldH) newId).take i →
    slotAfter (some oldH) newId i ≠ some oldH

instance (oldH : handler) (newId : Nat) :
    Decidable (closeAfterUnreachable oldH newId) := by
  unfold closeAfterUnreachable
  exact Nat.decidableBallLE _ _

/-! ### ServeHTTP (cp.go lines 118-127) -/

deriving instance DecidableEq for Except

/-- Outcome of one `ServeHTTP` call: the registration path (returning
`acceptProxy`'s result), forwarding over the stored handler's proxy, or
delegation to the `next` handler. -/
inductive ServeOutcome where
  | register (res : Except ProxyErr Unit)
  | forward (h : handler)
  | next
  deriving DecidableEq, Repr

/-- `ServeHTTP`: if the `X-Client-Proxy` header value equals the secret,
call `acceptProxy` and return its result; otherwise forward over the
stored handler when one exists, else delegate to `next`.  `hdrVal` is
the result of `r.Header.Get("X-Client-Proxy")` and `freshId` the `done`
channel a successful registration would allocate. -/
def serveHTTP (secret hdrVal : String) (e : SetupEnv) (st : RegState)
    (freshId : Nat) : ServeOutcome × RegState :=
  if hdrVal = secret then
    let r := acceptProxyReg e st freshId
    (.register r.fst, r.snd)
  else
    match st.slot with
    | some h => (.forward h, st)
    | none => (.next, st)

/-! ### Validate (cp.go lines 61-66) -/

/-- `Validate`: reject an empty secret with the "no secret" error. -/
def Validate (secret : String) : Option String :=
  if secret = "" then some "no secret" else none

/-! ### The Director (cp.go lines 99-102) -/

/-- The request target as the `Director` sees it: `r.URL.Scheme` and
the authority `r.URL.Host`. -/
structure URL where
  scheme : String
  host : String
  deriving DecidableEq, Repr

/-- The `ReverseProxy` `Director` installed by `acceptProxy`: it sets
`r.URL.Scheme = "https"` and nothing else. -/
def director (u : URL) : URL :=
  { u with scheme := "https" }

/-! ### bufConn (cp.go lines 150-168) -/

/-- The decorated connection: `reader` models the `*bufio.Reader` (its
remaining buffered bytes; `none` once the field is set to nil) and
`conn` the byte stream still deliverable by the raw `net.Conn`. -/
structure bufConn where
  reader : Option (List Nat)
  conn : List Nat
  deriving DecidableEq, Repr

/-- A `Read` of up to `k` bytes on the raw connection. -/
def connRead (s : List Nat) (k : Nat) : List Nat × List Nat :=
  (s.take k, s.drop k)

/-- `bufConn.Read` with a destination buffer of length `k`: if the
reader is nil, read the raw connection; if the reader has no buffered
bytes, drop it and read the raw connection; otherwise shrink the
destination to the buffered count when it is larger and read from the
reader (which serves `min k n` buffered bytes). -/
def bufConnRead (c : bufConn) (k : Nat) : List Nat × bufConn :=
  match c.reader with
  | none =>
      let r := connRead c.conn k
      (r.fst, { reader := none, conn := r.snd })
  | some buf =>
      if buf.length = 0 then
        let r := connRead c.conn k
        (r.fst, { reader := none, conn := r.snd })
      else
        let k2 := min k buf.length
        (buf.take k2, { reader := some (buf.drop k2), conn := c.conn })

/-- A sequence of `Read` calls with the given destination lengths,
concatenating what they return. -/
def readMany (c : bufConn) (ks : List Nat) : List Nat × bufConn :=
  match ks with
  | [] => ([], c)
  | k :: ks =>
      let r := bufConnRead c k
      let rest := readMany r.snd ks
      (r.fst ++ rest.fst, rest.snd)

/-- The bytes still deliverable by a `bufConn`: the buffered bytes
first, then the raw connection's stream. -/
def avail (c : bufConn) : List Nat :=
  (c.reader.getD []) ++ c.conn

/-! ## Theorems -/

/-- C9: `Validate` returns an error if and only if the configured
secret is the empty string. -/
theorem C9_validate_err_iff_empty_secret (secret : String) :
    (Validate secret).isSome ↔ secret = "" := by
  unfold Validate
  split <;> simp_all

/-- C3: every registration attempt that fails during setup — full-duplex
enablement, hijack, flush, or HTTP/2 client-connection construction —
returns an error and leaves the middleware state (in particular the
handler slot) exactly as it was before the attempt. -/
theorem C3_setup_failure_preserves_slot (e : SetupEnv) (st : RegState)
    (freshId : Nat)
    (hfail : e.fullDuplexErr ∨ e.hijackErr ∨ e.flushErr ∨ e.newClientConnErr) :
    (∃ err, (acceptProxyReg e st freshId).fst = Except.error err) ∧
    (acceptProxyReg e st freshId).snd = st := by
  obtain ⟨fd, hj, fl, bu, cc⟩ := e
  cases fd <;> cases hj <;> cases fl <;> cases cc <;>
    simp_all [acceptProxyReg, acceptProxySetup]

/-- Witness for C3 at a concrete failing environment. -/
theorem C3_setup_failure_preserves_slot_witness :
    ((true : Bool) = true ∨ (false : Bool) = true ∨ (false : Bool) = true ∨
      (false : Bool) = true) ∧
    ((∃ err, (acceptProxyReg
        { fullDuplexErr := true, hijackErr := false, flushErr := false,
          buffered := 0, newClientConnErr := false }
        { slot := some { done := 0 }, closedLog := [] } 1).fst =
          Except.error err) ∧
      (acceptProxyReg
        { fullDuplexErr := true, hijackErr := false, flushErr := false,
          buffered := 0, newClientConnErr := false }
        { slot := some { done := 0 }, closedLog := [] } 1).snd =
          { slot := some { done := 0 }, closedLog := [] }) :=
  ⟨Or.inl rfl,
   C3_setup_failure_preserves_slot
     { fullDuplexErr := true, hijackErr := false, flushErr := false,
       buffered := 0, newClientConnErr := false }
     { slot := some { done := 0 }, closedLog := [] } 1 (Or.inl rfl)⟩

/-- C4: the registering call yields a result only once its retirement
signal (`done`) has been closed, and the result is success exactly when
`Shutdown` succeeded or failed with `net.ErrClosed`; any other shutdown
failure is reported as the shutdown error. -/
theorem C4_finish_after_signal_and_result (dc : Bool) (res : ShutdownRes) :
    ((acceptProxyFinish dc res).isSome ↔ dc = true) ∧
    (acceptProxyFinish true res = some (Except.ok ()) ↔
      (res = ShutdownRes.ok ∨ res = ShutdownRes.errClosed)) ∧
    (acceptProxyFinish true res = some (Except.error ProxyErr.shutdown) ↔
      res = ShutdownRes.otherErr) := by
  cases dc <;> cases res <;> simp [acceptProxyFinish]

/-- C8 counterexample: at a concrete request URL the `Director` forces
the scheme to "https" but leaves the authority (`Host`) unchanged, so
the claim that it rewrites the authority away from the original inbound
authority fails. -/
theorem C8_counterexample :
    ¬ ((director { scheme := "http", host := "origin.example" }).scheme = "https" ∧
       (director { scheme := "http", host := "origin.example" }).host ≠
         "origin.example") := by
  simp [director]

/-- C8 (amended): the `Director` rewrites only the scheme, forcing it to
"https"; the authority is left unchanged (the tunnel endpoint is fixed
by the underlying hijacked connection, not by the request URL). -/
theorem C8_director_forces_https_keeps_authority (u : URL) :
    director u = { scheme := "https", host := u.host } := rfl

/-- C2 counterexample: for a displacement of handler 0 by handler 1, the
prefix of the commit phase containing only the close event leaves the
slot still holding handler 0 — a `Load` performed after the signal fires
can still return the old, retiring handler. -/
theorem C2_counterexample : ¬ closeAfterUnreachable { done := 0 } 1 := by
  intro hc
  exact hc 1 (by decide) (by decide) rfl

/-- C2 (amended): in every displacement, the previous occupant's
retirement signal is closed exactly once, in the same registration and
immediately *before* the store of the new value; after both steps the
slot holds the new handler, but between the close and the store a `Load`
still returns the old handler. -/
theorem C2_close_once_before_store (h : handler) (newId : Nat) :
    commitSteps (some h) newId = [ev.closeDone h.done, ev.store newId] ∧
    (commitSteps (some h) newId).count (ev.closeDone h.done) = 1 ∧
    slotAfter (some h) newId 1 = some h ∧
    slotAfter (some h) newId 2 = some { done := newId } := by
  refine ⟨rfl, ?_, rfl, rfl⟩
  simp [commitSteps, List.count_cons]

/-- The property C5 asserts: whenever the active transport's connection
is reported dead (by any liveness view `liveness` of the transports),
a non-registration request is delegated to the next handler. -/
def deadTransportFailsClosed : Prop :=
  ∀ (liveness : handler → Bool) (h : handler) (secret hdrVal : String)
    (st : RegState) (freshId : Nat),
    liveness h = false → st.slot = some h → hdrVal ≠ secret →
    (serveHTTP secret hdrVal SetupEnv.ok st freshId).fst = ServeOutcome.next

/-- C5 counterexample: `ServeHTTP` never consults the transport's
liveness — with handler 0 in the slot and its connection dead, a
non-registration request is still forwarded over it, not delegated to
the next handler. -/
theorem C5_counterexample : ¬ deadTransportFailsClosed := by
  intro hc
  have h := hc (fun _ => false) { done := 0 } "s" ""
    { slot := some { done := 0 }, closedLog := [] } 1 rfl rfl (by decide)
  simp [serveHTTP] at h

/-- C5 (amended): for a non-registration request, `ServeHTTP` delegates
to the next handler exactly when the slot was never populated; whenever
a handler is stored — dead connection or not — the request is forwarded
over it, until the next successful registration replaces it. -/
theorem C5_next_iff_slot_empty (secret hdrVal : String) (e : SetupEnv)
    (st : RegState) (freshId : Nat) (hne : hdrVal ≠ secret) :
    ((serveHTTP secret hdrVal e st freshId).fst = ServeOutcome.next ↔
      st.slot = none) ∧
    (∀ h, st.slot = some h →
      (serveHTTP secret hdrVal e st freshId).fst = ServeOutcome.forward h) := by
  unfold serveHTTP
  rcases hst : st.slot with _ | h <;> simp [hne, hst]

/-- Witness for C5 (amended) at a concrete populated slot. -/
theorem C5_next_iff_slot_empty_witness :
    ("" : String) ≠ "s" ∧
    (((serveHTTP "s" "" SetupEnv.ok
        { slot := some { done := 0 }, closedLog := [] } 1).fst =
          ServeOutcome.next ↔
        ({ slot := some { done := 0 }, closedLog := [] } : RegState).slot = none) ∧
      (∀ h, ({ slot := some { done := 0 }, closedLog := [] } : RegState).slot =
          some h →
        (serveHTTP "s" "" SetupEnv.ok
          { slot := some { done := 0 }, closedLog := [] } 1).fst =
            ServeOutcome.forward h)) :=
  ⟨by decide,
   C5_next_iff_slot_empty "s" "" SetupEnv.ok
     { slot := some { done := 0 }, closedLog := [] } 1 (by decide)⟩

/-- C6 counterexample: with an active transport in the slot, a request
whose credential does not match is forwarded over the transport, not
delegated to the next handler — refuting "always falls through to the
external next-handler path". -/
theorem C6_counterexample :
    ¬ (∀ (secret hdrVal : String) (e : SetupEnv) (st : RegState) (freshId : Nat),
        hdrVal ≠ secret →
        (∀ r, (serveHTTP secret hdrVal e st freshId).fst ≠
          ServeOutcome.register r) ∧
        (serveHTTP secret hdrVal e st freshId).fst = ServeOutcome.next) := by
  intro hc
  have h := (hc "s" "" SetupEnv.ok
    { slot := some { done := 0 }, closedLog := [] } 1 (by decide)).2
  simp [serveHTTP] at h

/-- C6 (amended): a request whose credential does not match the secret
is never treated as a registration (the connection is never hijacked and
the middleware state is untouched); it falls through to the next handler
when no transport is stored, and is forwarded over the stored transport
otherwise. -/
theorem C6_mismatch_never_hijacks (secret hdrVal : String) (e : SetupEnv)
    (st : RegState) (freshId : Nat) (hne : hdrVal ≠ secret) :
    (∀ r, (serveHTTP secret hdrVal e st freshId).fst ≠
      ServeOutcome.register r) ∧
    (serveHTTP secret hdrVal e st freshId).snd = st ∧
    (st.slot = none →
      (serveHTTP secret hdrVal e st freshId).fst = ServeOutcome.next) ∧
    (∀ h, st.slot = some h →
      (serveHTTP secret hdrVal e st freshId).fst = ServeOutcome.forward h) := by
  unfold serveHTTP
  rcases hst : st.slot with _ | h <;> simp [hne, hst]

/-- Witness for C6 (amended) at a concrete empty slot. -/
theorem C6_mismatch_never_hijacks_witness :
    ("x" : String) ≠ "s" ∧
    ((∀ r, (serveHTTP "s" "x" SetupEnv.ok RegState.init 1).fst ≠
        ServeOutcome.register r) ∧
      (serveHTTP "s" "x" SetupEnv.ok RegState.init 1).snd = RegState.init ∧
      (RegState.init.slot = none →
        (serveHTTP "s" "x" SetupEnv.ok RegState.init 1).fst =
          ServeOutcome.next) ∧
      (∀ h, RegState.init.slot = some h →
        (serveHTTP "s" "x" SetupEnv.ok RegState.init 1).fst =
          ServeOutcome.forward h)) :=
  ⟨by decide, C6_mismatch_never_hijacks "s" "x" SetupEnv.ok RegState.init 1
    (by decide)⟩

/-- C10: a request takes the registration path if and only if its
`X-Client-Proxy` header value exactly equals the secret; a matching
request is never delegated to the next handler nor forwarded over the
active transport, and when promotion fails its setup error is returned
as the outcome. -/
theorem C10_register_iff_header_matches (secret hdrVal : String)
    (e : SetupEnv) (st : RegState) (freshId : Nat) :
    ((∃ r, (serveHTTP secret hdrVal e st freshId).fst =
        ServeOutcome.register r) ↔ hdrVal = secret) ∧
    (hdrVal = secret →
      (∀ h, (serveHTTP secret hdrVal e st freshId).fst ≠
        ServeOutcome.forward h) ∧
      (serveHTTP secret hdrVal e st freshId).fst ≠ ServeOutcome.next ∧
      (∀ err, acceptProxySetup e = Except.error err →
        (serveHTTP secret hdrVal e st freshId).fst =
          ServeOutcome.register (Except.error err))) := by
  unfold serveHTTP acceptProxyReg
  by_cases hh : hdrVal = secret
  · rcases hs : acceptProxySetup e with err | u <;> simp [hh, hs]
  · rcases hst : st.slot with _ | h <;> simp [hh, hst]

/-- A registration appended to a sequence acts on the state the sequence
produced. -/
theorem runRegs_append (ids : List Nat) (x : Nat) (st : RegState) :
    runRegs (ids ++ [x]) st =
      (acceptProxyReg SetupEnv.ok (runRegs ids st) x).snd := by
  unfold runRegs
  rw [List.foldl_append]
  rfl

/-- After the registrations `0, 1, …, n` from the initial state, the
slot holds handler `n` and the closed `done` channels are `0, …, n-1`
in order. -/
theorem runRegs_range (n : Nat) :
    runRegs (List.range (n + 1)) RegState.init =
      { slot := some { done := n }, closedLog := List.range n } := by
  induction n with
  | zero => rfl
  | succ n ih =>
      rw [show List.range (n + 1 + 1) = List.range (n + 1) ++ [n + 1] from
        List.range_succ (n + 1)]
      rw [runRegs_append, ih]
      simp [acceptProxyReg, acceptProxySetup, SetupEnv.ok, List.range_succ]

/-- C1: after any sequence of N successful registrations, the handler
stored by the last registration is the one returned by `Load`, each of
the prior N−1 handlers has had its `done` channel closed exactly once,
and the last handler's `done` channel has not been closed. -/
theorem C1_last_current_priors_closed_once (N : Nat) (hN : 0 < N) :
    (runRegs (List.range N) RegState.init).slot = some { done := N - 1 } ∧
    (∀ i, i < N - 1 →
      (runRegs (List.range N) RegState.init).closedLog.count i = 1) ∧
    (runRegs (List.range N) RegState.init).closedLog.count (N - 1) = 0 := by
  obtain ⟨n, rfl⟩ : ∃ n, N = n + 1 := ⟨N - 1, by omega⟩
  rw [runRegs_range]
  refine ⟨by simp, ?_, ?_⟩
  · intro i hi
    simp only [Nat.add_sub_cancel] at hi
    exact List.count_eq_one_of_mem (List.nodup_range n) (List.mem_range.mpr hi)
  · have hnot : n ∉ List.range n := by simp
    simp [List.count_eq_zero_of_not_mem hnot]

/-- Witness for C1 with N = 3 registrations. -/
theorem C1_last_current_priors_closed_once_witness :
    0 < 3 ∧
    ((runRegs (List.range 3) RegState.init).slot = some { done := 3 - 1 } ∧
      (∀ i, i < 3 - 1 →
        (runRegs (List.range 3) RegState.init).closedLog.count i = 1) ∧
      (runRegs (List.range 3) RegState.init).closedLog.count (3 - 1) = 0) :=
  ⟨by decide, C1_last_current_priors_closed_once 3 (by decide)⟩

/-- One `bufConn.Read` conserves the deliverable bytes: what it returns,
followed by what remains deliverable, is exactly what was deliverable
before. -/
theorem bufConnRead_avail (c : bufConn) (k : Nat) :
    (bufConnRead c k).fst ++ avail (bufConnRead c k).snd = avail c := by
  rcases c with ⟨_ | buf, s⟩
  · simp [bufConnRead, avail, connRead]
  · by_cases hb : buf.length = 0
    · have hbe : buf = [] := List.length_eq_zero.mp hb
      subst hbe
      simp [bufConnRead, avail, connRead]
    · simp only [bufConnRead]
      rw [if_neg hb]
      simp only [avail, Option.getD]
      rw [← List.append_assoc, List.take_append_drop]

/-- Any sequence of `bufConn.Read` calls conserves the deliverable
bytes. -/
theorem readMany_avail (ks : List Nat) (c : bufConn) :
    (readMany c ks).fst ++ avail (readMany c ks).snd = avail c := by
  induction ks generalizing c with
  | nil => simp [readMany]
  | cons k ks ih =>
      simp only [readMany]
      rw [List.append_assoc, ih, bufConnRead_avail]

/-- C7: for a connection with buffered bytes `buf` (K = `buf.length` >
0) carried over at hijack time, every sequence of reads returns a
prefix of `buf ++ conn` — the K buffered bytes come first, in original
order, with no duplication or loss — and once the reader is gone all
reads fall through to the underlying connection. -/
theorem C7_buffered_bytes_replayed (c : bufConn) (buf : List Nat)
    (ks : List Nat) (hr : c.reader = some buf) (hK : 0 < buf.length) :
    (readMany c ks).fst ++ avail (readMany c ks).snd = buf ++ c.conn ∧
    (readMany c ks).fst = (buf ++ c.conn).take (readMany c ks).fst.length ∧
    (∀ d : bufConn, d.reader = none → ∀ k,
      bufConnRead d k =
        (d.conn.take k, { reader := none, conn := d.conn.drop k })) := by
  have hav : avail c = buf ++ c.conn := by simp [avail, hr]
  have h1 : (readMany c ks).fst ++ avail (readMany c ks).snd = buf ++ c.conn := by
    rw [readMany_avail, hav]
  refine ⟨h1, ?_, ?_⟩
  · rw [← h1, List.take_left]
  · intro d hd k
    simp [bufConnRead, hd, connRead]

/-- Witness for C7 with two buffered bytes, one byte on the raw
connection, and reads of sizes 1 and 2. -/
theorem C7_buffered_bytes_replayed_witness :
    ({ reader := some [1, 2], conn := [3] } : bufConn).reader = some [1, 2] ∧
    0 < ([1, 2] : List Nat).length ∧
    ((readMany { reader := some [1, 2], conn := [3] } [1, 2]).fst ++
        avail (readMany { reader := some [1, 2], conn := [3] } [1, 2]).snd =
        [1, 2] ++ ({ reader := some [1, 2], conn := [3] } : bufConn).conn ∧
      (readMany { reader := some [1, 2], conn := [3] } [1, 2]).fst =
        ([1, 2] ++ ({ reader := some [1, 2], conn := [3] } : bufConn).conn).take
          (readMany { reader := some [1, 2], conn := [3] } [1, 2]).fst.length ∧
      (∀ d : bufConn, d.reader = none → ∀ k,
        bufConnRead d k =
          (d.conn.take k, { reader := none, conn := d.conn.drop k }))) :=
  ⟨rfl, by decide,
   C7_buffered_bytes_replayed { reader := some [1, 2], conn := [3] } [1, 2]
     [1, 2] rfl (by decide)⟩

end ClientProxy
